import Mathlib

/-!
Shallow embedding of the `qlm` thread pool
(src/include/thread_safe_queue.hpp, src/include/thread_pool.hpp).

The queue is modelled as the list of its elements, head = front of the
`std::queue`.  The pool is a record of its fields; the two `std::atomic_bool`
flags `kill` and `stop` are plain booleans, since every claim is about the
sequential state-transition behaviour of the operations (each C++ operation
body runs under the single mutex `mut`).  One iteration of the worker loop
`ThreadPool::WorkerThread` is the function `workerWake`; running a worker
thread until its loop returns is `workerRunToTerm`.
-/

namespace qlm

namespace ThreadSafeQueue

/-- `ThreadSafeQueue<T>::Push`: `data_queue.push(std::move(new_value))`,
i.e. insert at the tail (the condition-variable notify has no effect on the
queue contents). -/
def Push {τ : Type} (q : List τ) (v : τ) : List τ := q ++ [v]

/-- `ThreadSafeQueue<T>::WaitPop`: blocks until the queue is non-empty, then
removes and returns the front element.  `none` models the blocked case (the
wait predicate `!data_queue.empty()` is false). -/
def WaitPop {τ : Type} : List τ → Option (τ × List τ)
  | [] => none
  | x :: xs => some (x, xs)

/-- `ThreadSafeQueue<T>::TryPop`: pops the front if present, else reports
empty without suspending. -/
def TryPop {τ : Type} : List τ → Option τ × List τ
  | [] => (none, [])
  | x :: xs => (some x, xs)

/-- `ThreadSafeQueue<T>::Empty`: `data_queue.empty()`. -/
def Empty {τ : Type} (q : List τ) : Bool := q.isEmpty

/-- `ThreadSafeQueue<T>::Size`: `data_queue.size()`. -/
def Size {τ : Type} (q : List τ) : Nat := q.length

/-- `ThreadSafeQueue<T>::ThreadSafeQueue(int len) : data_queue(len)`:
the underlying `std::queue` container is constructed with `len`
default-constructed (value-initialized) elements. -/
def ofLen (τ : Type) [Inhabited τ] (len : Nat) : List τ :=
  List.replicate len (default : τ)

/-- Iterated `WaitPop`: the element returned by the `n`-th pop (0-based)
starting from queue `q`, together with the remaining queue. -/
def popIter {τ : Type} : Nat → List τ → Option (τ × List τ)
  | 0, q => WaitPop q
  | n + 1, q =>
      match WaitPop q with
      | some (_, rest) => popIter n rest
      | none => none

end ThreadSafeQueue

/-- The derived tri-state shutdown state of the pool: the code's pair of
flags `(kill, stop)` read with the priority the worker loop uses
(`kill` checked first). -/
inductive ShutdownState where
  | Running
  | Draining
  | Killed
deriving DecidableEq, Repr

/-- Numeric rank of a shutdown state, for the monotonicity ordering
Running < Draining < Killed. -/
def ShutdownState.rank : ShutdownState → Nat
  | .Running => 0
  | .Draining => 1
  | .Killed => 2

/-- The state of a `qlm::ThreadPool`: the task queue, the two shutdown flags,
the private `thread_count` field, the public `used_threads` field, and the
size of the `workers` vector (fixed at construction). -/
structure ThreadPool (τ : Type) where
  task_queue : List τ
  kill : Bool
  stop : Bool
  thread_count : Nat
  used_threads : Nat
  workers : Nat
deriving DecidableEq, Repr

namespace ThreadPool

/-- `ThreadPool::ThreadPool(thread_count)`: initializer list sets
`thread_count(thread_count), used_threads(thread_count), workers(thread_count),
kill(false), stop(false)`; `thread_count` worker threads are spawned. -/
def init (τ : Type) (thread_count : Nat) : ThreadPool τ :=
  { task_queue := []
    kill := false
    stop := false
    thread_count := thread_count
    used_threads := thread_count
    workers := thread_count }

/-- The constructor as a fallible operation: the source constructor contains
no validation of `thread_count` and never reports a failure, so this always
succeeds. -/
def construct (τ : Type) (thread_count : Nat) : Except String (ThreadPool τ) :=
  .ok (init τ thread_count)

/-- `ThreadPool::Running`: `!stop && !kill`. -/
def Running {τ : Type} (p : ThreadPool τ) : Bool := !p.stop && !p.kill

/-- The tri-state shutdown state derived from the two flags, `kill` taking
priority as in `WorkerThread`'s `if (kill || ...)`. -/
def shutdownState {τ : Type} (p : ThreadPool τ) : ShutdownState :=
  if p.kill then .Killed else if p.stop then .Draining else .Running

/-- `ThreadPool::Submit`: under the lock, `if (stop || kill) throw
std::runtime_error("The thread pool has been stop.")` — the exception leaves
the pool unchanged and the locally created task/future are destroyed —
otherwise push the wrapped task.  The first component is the reported
outcome, the second the pool state after the call. -/
def Submit {τ : Type} (p : ThreadPool τ) (t : τ) : Except String Unit × ThreadPool τ :=
  if p.stop || p.kill then
    (.error "The thread pool has been stop.", p)
  else
    (.ok (), { p with task_queue := ThreadSafeQueue.Push p.task_queue t })

/-- `ThreadPool::Stop`: `stop = true; thread_count = 0; cv.notify_all()`. -/
def Stop {τ : Type} (p : ThreadPool τ) : ThreadPool τ :=
  { p with stop := true, thread_count := 0 }

/-- `ThreadPool::Kill`: `kill = true; thread_count = 0; cv.notify_all()`. -/
def Kill {τ : Type} (p : ThreadPool τ) : ThreadPool τ :=
  { p with kill := true, thread_count := 0 }

/-- `ThreadPool::Size`: returns the private field `thread_count`. -/
def Size {τ : Type} (p : ThreadPool τ) : Nat := p.thread_count

end ThreadPool

/-- Result of one wake-up of a worker blocked on
`cv.wait(lk, [this]{ return !task_queue.Empty() || kill || stop; })`:
the worker keeps waiting (predicate false), returns from the loop
(`Terminated`), or pops one task and goes on to execute it. -/
inductive WakeResult (τ : Type) where
  | stillWaiting : WakeResult τ
  | terminated : WakeResult τ
  | popped : τ → ThreadPool τ → WakeResult τ
deriving DecidableEq, Repr

namespace ThreadPool

/-- One iteration of `ThreadPool::WorkerThread`'s loop body: wait for
`!task_queue.Empty() || kill || stop`; then `if (kill || (stop &&
task_queue.Empty())) return;` else `task_queue.WaitPop(task)`. -/
def workerWake {τ : Type} (p : ThreadPool τ) : WakeResult τ :=
  if !ThreadSafeQueue.Empty p.task_queue || p.kill || p.stop then
    if p.kill || (p.stop && ThreadSafeQueue.Empty p.task_queue) then
      .terminated
    else
      match ThreadSafeQueue.WaitPop p.task_queue with
      | some (t, rest) => .popped t { p with task_queue := rest }
      | none => .stillWaiting
  else
    .stillWaiting

theorem workerWake_popped_queue {τ : Type} {p : ThreadPool τ} {t : τ}
    {p' : ThreadPool τ} (h : workerWake p = .popped t p') :
    p.task_queue = t :: p'.task_queue := by
  unfold workerWake at h
  cases hq : p.task_queue with
  | nil =>
      rw [hq] at h
      simp only [ThreadSafeQueue.WaitPop] at h
      split at h
      · split at h <;> simp_all
      · simp_all
  | cons x xs =>
      rw [hq] at h
      simp only [ThreadSafeQueue.Empty, ThreadSafeQueue.WaitPop,
        List.isEmpty_cons, Bool.not_false, Bool.true_or, if_true,
        Bool.and_false, Bool.or_false] at h
      by_cases hk : p.kill
      · simp [hk] at h
      · simp only [hk] at h
        simp only [Bool.false_eq_true, if_false, WakeResult.popped.injEq] at h
        rw [← h.2, h.1]

/-- Running one worker thread until its `WorkerThread` loop returns:
the list of tasks it popped (in order; each is executed between pops), and
the pool state when the worker terminates.  `none` models a worker blocked
forever on the condition variable with no further wake-ups. -/
def workerRunToTerm {τ : Type} (p : ThreadPool τ) :
    Option (List τ × ThreadPool τ) :=
  match h : workerWake p with
  | .stillWaiting => none
  | .terminated => some ([], p)
  | .popped t p' => (workerRunToTerm p').map (fun r => (t :: r.1, r.2))
termination_by p.task_queue.length
decreasing_by
  have hq := workerWake_popped_queue h
  simp [hq]

/-- `submitAll p ts`: submit the tasks of `ts` in order, stopping at the
first reported failure (repeated calls to `ThreadPool::Submit`). -/
def submitAll {τ : Type} (p : ThreadPool τ) : List τ → Except String (ThreadPool τ)
  | [] => .ok p
  | t :: ts =>
      match Submit p t with
      | (.ok _, p') => submitAll p' ts
      | (.error e, _) => .error e

/-- Joining `n` workers one after the other: each runs its loop to
termination (`worker.join()` in the destructor's loop); returns the tasks
each worker popped and the final pool state, or `none` if some worker never
terminates. -/
def joinAll {τ : Type} (p : ThreadPool τ) : Nat → Option (List (List τ) × ThreadPool τ)
  | 0 => some ([], p)
  | n + 1 =>
      match workerRunToTerm p with
      | none => none
      | some (ts, p') =>
          match joinAll p' n with
          | none => none
          | some (tss, p'') => some (ts :: tss, p'')

/-- `ThreadPool::~ThreadPool`: `stop = true; thread_count = 0;
cv.notify_all();` then `for (auto& worker : workers) worker.join();` —
the workers vector has `p.workers` entries. -/
def destruct {τ : Type} (p : ThreadPool τ) : Option (List (List τ) × ThreadPool τ) :=
  joinAll ({ p with stop := true, thread_count := 0 } : ThreadPool τ) p.workers

/-- Modelled from the spec: "Teardown ... equivalent to `stop()` followed by
joining every worker in WorkerSet".  Built from the spec's words, to be
compared with `destruct` (which is translated from the destructor's body). -/
def stopThenJoinSpec {τ : Type} (p : ThreadPool τ) :
    Option (List (List τ) × ThreadPool τ) :=
  joinAll (Stop p) p.workers

end ThreadPool

/-- One operation applied to the pool state by some thread: a submission, a
`Stop()` or `Kill()` call, or one worker-loop iteration (which changes the
pool state only when it pops). -/
inductive PoolOp (τ : Type) where
  | submit : τ → PoolOp τ
  | stopCall : PoolOp τ
  | killCall : PoolOp τ
  | workerIter : PoolOp τ
deriving DecidableEq, Repr

namespace ThreadPool

/-- Effect of one `PoolOp` on the pool state. -/
def applyOp {τ : Type} (p : ThreadPool τ) : PoolOp τ → ThreadPool τ
  | .submit t => (Submit p t).2
  | .stopCall => Stop p
  | .killCall => Kill p
  | .workerIter =>
      match workerWake p with
      | .popped _ p' => p'
      | _ => p

/-- Effect of a sequence of `PoolOp`s, first operation first. -/
def applyOps {τ : Type} (p : ThreadPool τ) : List (PoolOp τ) → ThreadPool τ
  | [] => p
  | o :: os => applyOps (applyOp p o) os

end ThreadPool

/-- Outcome stored in a `std::future`'s shared state: a value, or the
failure captured from the callable. -/
inductive Outcome (ρ ε : Type) where
  | value : ρ → Outcome ρ ε
  | failure : ε → Outcome ρ ε
deriving DecidableEq, Repr

/-- Invoking the `std::packaged_task`: runs the bound callable and stores
either its value or the failure it raised — the invocation itself never
propagates the failure to the invoking worker. -/
def runPackagedTask {ρ ε : Type} : Except ε ρ → Outcome ρ ε
  | .ok v => .value v
  | .error e => .failure e

namespace ResultHandle

/-- `std::future::get` on a handle: `none` while unfulfilled (the caller
blocks); once fulfilled, the stored value or the captured failure. -/
def get {ρ ε : Type} : Option (Outcome ρ ε) → Option (Except ε ρ)
  | none => none
  | some (.value v) => some (.ok v)
  | some (.failure e) => some (.error e)

end ResultHandle

/-- The pool together with the result plumbing of `Submit`: the queue holds
indices into `tasks` (the bound callables of the wrapped
`std::packaged_task`s, given by the outcome each produces when invoked), and
`handles` holds the shared state of the futures, `none` = not yet
fulfilled. -/
structure ExecPool (ρ ε : Type) where
  core : ThreadPool Nat
  tasks : List (Except ε ρ)
  handles : List (Option (Outcome ρ ε))
deriving Repr

namespace ExecPool

/-- `ThreadPool::Submit` with the result plumbing: build the packaged task
and its future, then under the lock either report the closed-pool failure
(the fresh task and future are locals, destroyed on throw, so the pool is
unchanged) or push the wrapped task and return the future's index. -/
def SubmitTask {ρ ε : Type} (p : ExecPool ρ ε) (c : Except ε ρ) :
    Except String Nat × ExecPool ρ ε :=
  let id := p.tasks.length
  match ThreadPool.Submit p.core id with
  | (.error e, _) => (.error e, p)
  | (.ok _, core') =>
      (.ok id,
       { core := core', tasks := p.tasks ++ [c], handles := p.handles ++ [none] })

/-- Executing the popped wrapped task `[task]() { (*task)(); }`: invoking the
packaged task stores the callable's outcome into that task's handle; nothing
else changes, and nothing escapes into the worker loop. -/
def execTask {ρ ε : Type} (p : ExecPool ρ ε) (id : Nat) : ExecPool ρ ε :=
  match p.tasks[id]? with
  | some c => { p with handles := p.handles.set id (some (runPackagedTask c)) }
  | none => p

end ExecPool

/-- Result of one worker-loop iteration on an `ExecPool`: still waiting,
loop returned, or one task popped and executed. -/
inductive ExecWakeResult (ρ ε : Type) where
  | stillWaiting : ExecWakeResult ρ ε
  | terminated : ExecWakeResult ρ ε
  | executed : Nat → ExecPool ρ ε → ExecWakeResult ρ ε
deriving Repr

namespace ExecPool

/-- One iteration of the worker loop on an `ExecPool`: the wake/pop logic of
`WorkerThread`, then `task()` outside the lock. -/
def workerStep {ρ ε : Type} (p : ExecPool ρ ε) : ExecWakeResult ρ ε :=
  match ThreadPool.workerWake p.core with
  | .stillWaiting => .stillWaiting
  | .terminated => .terminated
  | .popped id core' => .executed id (execTask { p with core := core' } id)

end ExecPool

namespace ThreadPool

theorem workerWake_kill {τ : Type} {p : ThreadPool τ} (hk : p.kill = true) :
    workerWake p = .terminated := by
  simp [workerWake, hk]

theorem workerWake_drainEmpty {τ : Type} {p : ThreadPool τ} (hs : p.stop = true)
    (hq : p.task_queue = []) : workerWake p = .terminated := by
  simp [workerWake, hs, hq, ThreadSafeQueue.Empty]

theorem workerWake_pop {τ : Type} {p : ThreadPool τ} {t : τ} {rest : List τ}
    (hk : p.kill = false) (hq : p.task_queue = t :: rest) :
    workerWake p = .popped t { p with task_queue := rest } := by
  simp [workerWake, hk, hq, ThreadSafeQueue.Empty, ThreadSafeQueue.WaitPop]

theorem workerWake_popped_eq {τ : Type} {p : ThreadPool τ} {t : τ}
    {p' : ThreadPool τ} (h : workerWake p = .popped t p') :
    p.task_queue = t :: p'.task_queue ∧ p' = { p with task_queue := p'.task_queue } := by
  obtain ⟨l, k, s, tc, ut, w⟩ := p
  cases l with
  | nil =>
      cases k <;> cases s <;>
        simp [workerWake, ThreadSafeQueue.Empty, ThreadSafeQueue.WaitPop] at h
  | cons x xs =>
      cases k with
      | true => simp [workerWake, ThreadSafeQueue.Empty] at h
      | false =>
          simp [workerWake, ThreadSafeQueue.Empty, ThreadSafeQueue.WaitPop] at h
          obtain ⟨ht, hp⟩ := h
          subst ht
          rw [← hp]
          exact ⟨rfl, rfl⟩

theorem workerRunToTerm_eq_terminated {τ : Type} {p : ThreadPool τ}
    (h : workerWake p = .terminated) : workerRunToTerm p = some ([], p) := by
  unfold workerRunToTerm
  split <;> simp_all

theorem workerRunToTerm_eq_stillWaiting {τ : Type} {p : ThreadPool τ}
    (h : workerWake p = .stillWaiting) : workerRunToTerm p = none := by
  unfold workerRunToTerm
  split <;> simp_all

theorem workerRunToTerm_eq_popped {τ : Type} {p : ThreadPool τ} {t : τ}
    {p' : ThreadPool τ} (h : workerWake p = .popped t p') :
    workerRunToTerm p = (workerRunToTerm p').map (fun r => (t :: r.1, r.2)) := by
  conv_lhs => rw [workerRunToTerm]
  split <;> simp_all

/-- A worker on a pool with `stop` set and `kill` clear drains the whole
queue in order, then terminates with the queue empty. -/
theorem workerRunToTerm_drain {τ : Type} (l : List τ) :
    ∀ p : ThreadPool τ, p.task_queue = l → p.stop = true → p.kill = false →
      workerRunToTerm p = some (l, { p with task_queue := [] }) := by
  induction l with
  | nil =>
      intro p hq hs _
      rw [workerRunToTerm_eq_terminated (workerWake_drainEmpty hs hq)]
      obtain ⟨l, k, s, tc, ut, w⟩ := p
      simp_all
  | cons t rest ih =>
      intro p hq hs hk
      rw [workerRunToTerm_eq_popped (workerWake_pop hk hq)]
      rw [ih { p with task_queue := rest } rfl hs hk]
      rfl

/-- A worker run changes only the task queue: every other field of the final
state equals the corresponding field of the initial state. -/
theorem workerRunToTerm_frame {τ : Type} (n : Nat) :
    ∀ (p : ThreadPool τ) (ts : List τ) (p' : ThreadPool τ),
      p.task_queue.length ≤ n → workerRunToTerm p = some (ts, p') →
      p' = { p with task_queue := p'.task_queue } := by
  induction n with
  | zero =>
      intro p ts p' hlen h
      cases hw : workerWake p with
      | stillWaiting => rw [workerRunToTerm_eq_stillWaiting hw] at h; cases h
      | terminated =>
          rw [workerRunToTerm_eq_terminated hw] at h
          cases h
          rfl
      | popped t q =>
          have hq := (workerWake_popped_eq hw).1
          rw [hq] at hlen
          simp at hlen
  | succ n ih =>
      intro p ts p' hlen h
      cases hw : workerWake p with
      | stillWaiting => rw [workerRunToTerm_eq_stillWaiting hw] at h; cases h
      | terminated =>
          rw [workerRunToTerm_eq_terminated hw] at h
          cases h
          rfl
      | popped t q =>
          obtain ⟨hq, hframe⟩ := workerWake_popped_eq hw
          rw [workerRunToTerm_eq_popped hw] at h
          cases hr : workerRunToTerm q with
          | none => rw [hr] at h; cases h
          | some r =>
              rw [hr] at h
              cases h
              have hlen' : q.task_queue.length ≤ n := by
                have : q.task_queue.length + 1 ≤ n + 1 := by
                  rw [hq] at hlen; simpa using hlen
                omega
              have h2 := ih q r.1 r.2 hlen' (by rw [hr])
              rw [h2, hframe]

/-- Once `stop` is signaled a worker run always terminates, and the final
state still has `stop` set. -/
theorem workerRunToTerm_of_stop {τ : Type} (p : ThreadPool τ) (hs : p.stop = true) :
    ∃ ts p', workerRunToTerm p = some (ts, p') ∧ p'.stop = true := by
  cases hk : p.kill with
  | true => exact ⟨[], p, workerRunToTerm_eq_terminated (workerWake_kill hk), hs⟩
  | false =>
      refine ⟨p.task_queue, { p with task_queue := [] },
        workerRunToTerm_drain p.task_queue p rfl hs hk, hs⟩

/-- Once `stop` is signaled, joining any number of workers always
completes. -/
theorem joinAll_of_stop {τ : Type} (n : Nat) :
    ∀ p : ThreadPool τ, p.stop = true →
      ∃ tss p', joinAll p n = some (tss, p') ∧ p'.stop = true := by
  induction n with
  | zero => intro p hs; exact ⟨[], p, rfl, hs⟩
  | succ n ih =>
      intro p hs
      obtain ⟨ts, p1, h1, hs1⟩ := workerRunToTerm_of_stop p hs
      obtain ⟨tss, p2, h2, hs2⟩ := ih p1 hs1
      exact ⟨ts :: tss, p2, by simp [joinAll, h1, h2], hs2⟩

/-- Joining workers changes only the task queue. -/
theorem joinAll_frame {τ : Type} (n : Nat) :
    ∀ (p : ThreadPool τ) (tss : List (List τ)) (p' : ThreadPool τ),
      joinAll p n = some (tss, p') → p' = { p with task_queue := p'.task_queue } := by
  induction n with
  | zero =>
      intro p tss p' h
      cases h
      rfl
  | succ n ih =>
      intro p tss p' h
      cases hr : workerRunToTerm p with
      | none => simp [joinAll, hr] at h
      | some r =>
          obtain ⟨ts1, p1⟩ := r
          cases hj : joinAll p1 n with
          | none => simp [joinAll, hr, hj] at h
          | some s =>
              obtain ⟨tss2, p2⟩ := s
              simp only [joinAll, hr, hj, Option.some.injEq, Prod.mk.injEq] at h
              obtain ⟨-, hp⟩ := h
              subst hp
              have h1 := workerRunToTerm_frame p.task_queue.length p ts1 p1
                (Nat.le_refl _) hr
              have h2 := ih p1 tss2 p2 hj
              calc p2 = { p1 with task_queue := p2.task_queue } := h2
                _ = { p with task_queue := p2.task_queue } := by rw [h1]

/-- While the pool is running, submitting a list of tasks succeeds and
appends them, in order, at the tail of the queue. -/
theorem submitAll_running {τ : Type} (ts : List τ) :
    ∀ p : ThreadPool τ, p.stop = false → p.kill = false →
      submitAll p ts = .ok { p with task_queue := p.task_queue ++ ts } := by
  induction ts with
  | nil =>
      intro p _ _
      obtain ⟨l, k, s, tc, ut, w⟩ := p
      simp [submitAll]
  | cons t ts ih =>
      intro p hs hk
      obtain ⟨l, k, s, tc, ut, w⟩ := p
      simp at hs hk
      subst hs hk
      simp only [submitAll, Submit, Bool.or_self, Bool.false_eq_true, if_false,
        ThreadSafeQueue.Push]
      rw [ih ⟨l ++ [t], false, false, tc, ut, w⟩ rfl rfl]
      simp

end ThreadPool

namespace ThreadSafeQueue

/-- The `n`-th pop from queue `q` returns exactly the `n`-th element of `q`:
pop order is the queue order. -/
theorem popIter_get {τ : Type} (n : Nat) :
    ∀ q : List τ, (popIter n q).map Prod.fst = q[n]? := by
  induction n with
  | zero =>
      intro q
      cases q <;> simp [popIter, WaitPop]
  | succ n ih =>
      intro q
      cases q with
      | nil => simp [popIter, WaitPop]
      | cons x xs => simp [popIter, WaitPop, ih xs]

end ThreadSafeQueue

namespace ThreadPool

/-- No single operation lowers the derived shutdown state's rank. -/
theorem applyOp_rank_le {τ : Type} (p : ThreadPool τ) (o : PoolOp τ) :
    p.shutdownState.rank ≤ (p.applyOp o).shutdownState.rank := by
  cases o with
  | submit t =>
      by_cases hc : (p.stop || p.kill) = true <;>
        simp [applyOp, Submit, hc, shutdownState]
  | stopCall =>
      cases hk : p.kill <;> cases hs : p.stop <;>
        simp [applyOp, Stop, shutdownState, ShutdownState.rank, hk, hs]
  | killCall =>
      cases hk : p.kill <;> cases hs : p.stop <;>
        simp [applyOp, Kill, shutdownState, ShutdownState.rank, hk, hs]
  | workerIter =>
      cases hw : workerWake p with
      | popped t p' =>
          have := (workerWake_popped_eq hw).2
          simp only [applyOp, hw]
          rw [this]
          simp [shutdownState]
      | stillWaiting => simp [applyOp, hw]
      | terminated => simp [applyOp, hw]

/-- No operation sequence lowers the derived shutdown state's rank. -/
theorem applyOps_rank_le {τ : Type} (ops : List (PoolOp τ)) :
    ∀ p : ThreadPool τ,
      p.shutdownState.rank ≤ (p.applyOps ops).shutdownState.rank := by
  induction ops with
  | nil => intro p; exact Nat.le_refl _
  | cons o os ih =>
      intro p
      exact Nat.le_trans (applyOp_rank_le p o) (ih (p.applyOp o))

/-- No single operation changes `used_threads`. -/
theorem applyOp_used_threads {τ : Type} (p : ThreadPool τ) (o : PoolOp τ) :
    (p.applyOp o).used_threads = p.used_threads := by
  cases o with
  | submit t =>
      by_cases hc : (p.stop || p.kill) = true <;>
        simp [applyOp, Submit, hc]
  | stopCall => rfl
  | killCall => rfl
  | workerIter =>
      cases hw : workerWake p with
      | popped t p' =>
          have := (workerWake_popped_eq hw).2
          simp only [applyOp, hw]
          rw [this]
      | stillWaiting => simp [applyOp, hw]
      | terminated => simp [applyOp, hw]

/-- No operation sequence changes `used_threads`. -/
theorem applyOps_used_threads {τ : Type} (ops : List (PoolOp τ)) :
    ∀ p : ThreadPool τ, (p.applyOps ops).used_threads = p.used_threads := by
  induction ops with
  | nil => intro p; rfl
  | cons o os ih =>
      intro p
      rw [applyOps, ih (p.applyOp o), applyOp_used_threads]

end ThreadPool

/-! ## Claim theorems -/

open ThreadPool in
/-- C1: whenever the shutdown state is not Running (stop or kill has been
signaled), `Submit` reports the closed-pool failure synchronously and leaves
the pool — in particular the task queue — unchanged; when the pool is
Running, `Submit` pushes exactly one wrapped task at the tail and returns
the fresh `ResultHandle` (the future of the newly created packaged task). -/
theorem C1_submit_closed_fails_running_pushes (p : ThreadPool Nat)
    (q : ExecPool Nat String) (t : Nat) (c : Except String Nat) :
    (p.shutdownState ≠ .Running →
      p.Submit t = (.error "The thread pool has been stop.", p)) ∧
    (p.shutdownState = .Running →
      p.Submit t = (.ok (), { p with task_queue := p.task_queue ++ [t] })) ∧
    (q.core.shutdownState ≠ .Running →
      q.SubmitTask c = (.error "The thread pool has been stop.", q)) ∧
    (q.core.shutdownState = .Running →
      q.SubmitTask c =
        (.ok q.tasks.length,
         { core := { q.core with
              task_queue := q.core.task_queue ++ [q.tasks.length] },
           tasks := q.tasks ++ [c],
           handles := q.handles ++ [none] })) := by
  refine ⟨?_, ?_, ?_, ?_⟩
  · intro h
    cases hk : p.kill <;> cases hs : p.stop <;>
      simp_all [shutdownState, Submit]
  · intro h
    cases hk : p.kill <;> cases hs : p.stop <;>
      simp_all [shutdownState, Submit, ThreadSafeQueue.Push]
  · intro h
    cases hk : q.core.kill <;> cases hs : q.core.stop <;>
      simp_all [shutdownState, ExecPool.SubmitTask, Submit]
  · intro h
    cases hk : q.core.kill <;> cases hs : q.core.stop <;>
      simp_all [shutdownState, ExecPool.SubmitTask, Submit, ThreadSafeQueue.Push]

/-- C1 witness: on a stopped pool `Submit` reports the failure and changes
nothing; on a fresh pool it appends the one task; on a fresh `ExecPool` a
submission returns handle 0 and enqueues wrapped task 0. -/
theorem C1_submit_witness :
    ((ThreadPool.init Nat 2).Stop.Submit 7 =
      (.error "The thread pool has been stop.", (ThreadPool.init Nat 2).Stop)) ∧
    ((ThreadPool.init Nat 2).Submit 7 =
      (.ok (), { ThreadPool.init Nat 2 with task_queue := [7] })) ∧
    ((ExecPool.mk (ThreadPool.init Nat 2) [] [] : ExecPool Nat String).SubmitTask
        (.ok 4) =
      (.ok 0,
       (ExecPool.mk { ThreadPool.init Nat 2 with task_queue := [0] }
         [.ok 4] [none] : ExecPool Nat String))) := by
  refine ⟨?_, ?_, ?_⟩
  · exact (C1_submit_closed_fails_running_pushes _
      (ExecPool.mk (ThreadPool.init Nat 2) [] [] : ExecPool Nat String)
      7 (.ok 4)).1 (by decide)
  · exact (C1_submit_closed_fails_running_pushes (ThreadPool.init Nat 2)
      (ExecPool.mk (ThreadPool.init Nat 2) [] [] : ExecPool Nat String)
      7 (.ok 4)).2.1 (by decide)
  · exact (C1_submit_closed_fails_running_pushes (ThreadPool.init Nat 2)
      (ExecPool.mk (ThreadPool.init Nat 2) [] [] : ExecPool Nat String)
      7 (.ok 4)).2.2.2 (by decide)

open ThreadPool in
/-- C2: at a worker-loop wake-up: if `kill` is set the worker terminates
immediately without popping, even when the queue is non-empty (so once
Killed, no task is ever popped); if draining (`stop` set) on an empty queue
it terminates; otherwise it pops exactly one item, the queue head. -/
theorem C2_worker_wake_cases (p : ThreadPool Nat) (t0 : Nat) (rest : List Nat) :
    (p.kill = true → p.workerWake = .terminated) ∧
    (p.kill = true → ∀ u p', p.workerWake ≠ .popped u p') ∧
    (p.kill = false → p.stop = true → p.task_queue = [] →
      p.workerWake = .terminated) ∧
    (p.kill = false → p.task_queue = t0 :: rest →
      p.workerWake = .popped t0 { p with task_queue := rest }) := by
  refine ⟨fun hk => workerWake_kill hk, fun hk u p' hne => ?_,
    fun _ hs hq => workerWake_drainEmpty hs hq,
    fun hk hq => workerWake_pop hk hq⟩
  rw [workerWake_kill hk] at hne
  cases hne

/-- C2 witness: a killed pool with a non-empty queue terminates its worker
without popping; a draining pool with a non-empty queue pops the head. -/
theorem C2_worker_wake_witness :
    ((⟨[5, 6], true, false, 0, 2, 2⟩ : ThreadPool Nat).workerWake =
      .terminated) ∧
    ((⟨[3, 4], false, true, 0, 1, 1⟩ : ThreadPool Nat).workerWake =
      .popped 3 ⟨[4], false, true, 0, 1, 1⟩) := by
  constructor
  · exact (C2_worker_wake_cases ⟨[5, 6], true, false, 0, 2, 2⟩ 0 []).1 rfl
  · exact (C2_worker_wake_cases ⟨[3, 4], false, true, 0, 1, 1⟩ 3 [4]).2.2.2 rfl rfl

open ThreadPool ThreadSafeQueue in
/-- C3: the queue is strict FIFO: the `n`-th pop returns the `n`-th element,
so a task A pushed before a task B (A at index `i`, B at index `j > i` among
the pending tasks) is popped at the earlier pop; and for a pool with one
worker, tasks T1..Tn submitted in order are all enqueued in order and then
executed in exactly that order by the worker. -/
theorem C3_fifo_single_worker (qu : List Nat) (a b i j : Nat) (ts : List Nat) :
    (i < j → qu[i]? = some a → qu[j]? = some b →
      (popIter i qu).map Prod.fst = some a ∧
      (popIter j qu).map Prod.fst = some b) ∧
    ((ThreadPool.init Nat 1).submitAll ts =
      .ok { ThreadPool.init Nat 1 with task_queue := ts }) ∧
    (workerRunToTerm ({ ThreadPool.init Nat 1 with task_queue := ts }).Stop =
      some (ts, { (ThreadPool.init Nat 1).Stop with task_queue := [] })) := by
  refine ⟨fun _ ha hb => ⟨?_, ?_⟩, ?_, ?_⟩
  · rw [popIter_get]; exact ha
  · rw [popIter_get]; exact hb
  · simpa using submitAll_running ts (ThreadPool.init Nat 1) rfl rfl
  · exact workerRunToTerm_drain ts _ rfl rfl rfl

/-- C3 witness: in the queue [10, 20, 30], 10 (pushed first) is returned by
pop 0 and 30 by pop 2; a single-worker pool given [1, 2, 3] enqueues and
then executes them in exactly that order. -/
theorem C3_fifo_witness :
    ((ThreadSafeQueue.popIter 0 [10, 20, 30]).map Prod.fst = some 10 ∧
      (ThreadSafeQueue.popIter 2 [10, 20, 30]).map Prod.fst = some 30) ∧
    ((ThreadPool.init Nat 1).submitAll [1, 2, 3] =
      .ok { ThreadPool.init Nat 1 with task_queue := [1, 2, 3] }) ∧
    (ThreadPool.workerRunToTerm
        ({ ThreadPool.init Nat 1 with task_queue := [1, 2, 3] }).Stop =
      some ([1, 2, 3], { (ThreadPool.init Nat 1).Stop with task_queue := [] })) := by
  refine ⟨(C3_fifo_single_worker [10, 20, 30] 10 30 0 2 []).1 (by decide)
      (by decide) (by decide),
    (C3_fifo_single_worker [10, 20, 30] 10 30 0 2 [1, 2, 3]).2.1,
    (C3_fifo_single_worker [10, 20, 30] 10 30 0 2 [1, 2, 3]).2.2⟩

/-- C4 counterexample: `Size()` is not constant over the pool's lifetime:
`Stop()` zeroes the private `thread_count` field, so on a pool constructed
with `thread_count = 3` a call to `Stop()` changes the value reported by
`Size()` from 3 to 0. -/
theorem C4_size_counterexample :
    (ThreadPool.init Nat 3).Size = 3 ∧
    (ThreadPool.init Nat 3).Stop.Size = 0 ∧
    (ThreadPool.init Nat 3).Stop.Size ≠ 3 := by
  exact ⟨rfl, rfl, by decide⟩

open ThreadPool in
/-- C4 amended: `Size()` returns the configured `thread_count` at
construction and is unchanged by `Submit` and by worker pops, but `Stop()`
and `Kill()` reset the reported value to 0, so after either shutdown call
`Size()` returns 0 rather than the configured count. -/
theorem C4_amended_size_decays (K : Nat) (p : ThreadPool Nat) (t : Nat) :
    (ThreadPool.init Nat K).Size = K ∧
    ((p.Submit t).2).Size = p.Size ∧
    (∀ u p', p.workerWake = .popped u p' → p'.Size = p.Size) ∧
    p.Stop.Size = 0 ∧
    p.Kill.Size = 0 := by
  refine ⟨rfl, ?_, ?_, rfl, rfl⟩
  · by_cases hc : (p.stop || p.kill) = true <;> simp [Submit, hc, Size]
  · intro u p' hw
    rw [(workerWake_popped_eq hw).2]
    rfl

/-- C4 amended witness: `Size` is 2 at construction, survives a submission
and a worker pop, and drops to 0 after `Stop`. -/
theorem C4_amended_witness :
    (ThreadPool.init Nat 2).Size = 2 ∧
    (((ThreadPool.init Nat 2).Submit 9).2).Size = (ThreadPool.init Nat 2).Size ∧
    (⟨[], false, false, 2, 2, 2⟩ : ThreadPool Nat).Size =
      (⟨[4], false, false, 2, 2, 2⟩ : ThreadPool Nat).Size ∧
    (⟨[4], false, false, 2, 2, 2⟩ : ThreadPool Nat).Stop.Size = 0 := by
  refine ⟨(C4_amended_size_decays 2 (ThreadPool.init Nat 2) 9).1,
    (C4_amended_size_decays 2 (ThreadPool.init Nat 2) 9).2.1,
    (C4_amended_size_decays 2 ⟨[4], false, false, 2, 2, 2⟩ 9).2.2.1 4
      ⟨[], false, false, 2, 2, 2⟩ (by decide),
    (C4_amended_size_decays 2 ⟨[4], false, false, 2, 2, 2⟩ 9).2.2.2.1⟩

/-- C5 counterexample: the constructor performs no validation: constructing
with `thread_count = 0` reports no failure at all — it succeeds and yields a
pool with zero workers that is in the Running state (a silently accepted
no-op pool). -/
theorem C5_zero_counterexample :
    ThreadPool.construct Nat 0 = .ok (ThreadPool.init Nat 0) ∧
    (ThreadPool.init Nat 0).workers = 0 ∧
    (ThreadPool.init Nat 0).Running = true := by
  exact ⟨rfl, rfl, rfl⟩

/-- C5 amended: a `thread_count` of 0 is silently accepted, not reported:
construction always succeeds (for every `thread_count`, including 0), and
with 0 it yields a running pool whose worker set is empty. -/
theorem C5_amended_zero_accepted (tc : Nat) :
    ThreadPool.construct Nat tc = .ok (ThreadPool.init Nat tc) ∧
    (ThreadPool.init Nat 0).workers = 0 ∧
    (ThreadPool.init Nat 0).shutdownState = .Running := by
  exact ⟨rfl, rfl, rfl⟩

open ThreadPool in
/-- C6: the derived shutdown state is monotonic: no sequence of Submit,
Stop, Kill or worker iterations ever lowers its rank (Running < Draining <
Killed); `Stop` is idempotent and leaves an already Draining/Killed state
unchanged; `Kill` always yields Killed (overriding Draining), and a `Stop`
on a killed pool does not revert it. -/
theorem C6_shutdown_monotonic (p : ThreadPool Nat) (t : Nat)
    (ops : List (PoolOp Nat)) :
    p.shutdownState.rank ≤ (p.applyOps ops).shutdownState.rank ∧
    ((p.Submit t).2).shutdownState = p.shutdownState ∧
    p.Stop.Stop = p.Stop ∧
    (p.shutdownState ≠ .Running → p.Stop.shutdownState = p.shutdownState) ∧
    p.Kill.shutdownState = .Killed ∧
    (p.kill = true → p.Stop.shutdownState = .Killed) := by
  refine ⟨applyOps_rank_le ops p, ?_, rfl, ?_, ?_, ?_⟩
  · by_cases hc : (p.stop || p.kill) = true <;>
      simp [Submit, hc, shutdownState]
  · intro h
    cases hk : p.kill <;> cases hs : p.stop <;>
      simp_all [Stop, shutdownState]
  · simp [Kill, shutdownState]
  · intro hk
    simp [Stop, shutdownState, hk]

/-- C6 witness: along the sequence stop; submit; kill; worker-step from a
fresh pool the rank never decreases; `Stop` twice equals `Stop` once; a
killed pool stays Killed under `Stop`; `Kill` turns a draining pool into a
killed one. -/
theorem C6_shutdown_witness :
    (ThreadPool.init Nat 2).shutdownState.rank ≤
      ((ThreadPool.init Nat 2).applyOps
        [.stopCall, .submit 5, .killCall, .workerIter]).shutdownState.rank ∧
    (ThreadPool.init Nat 2).Stop.Stop = (ThreadPool.init Nat 2).Stop ∧
    (ThreadPool.init Nat 2).Kill.Stop.shutdownState = .Killed ∧
    (ThreadPool.init Nat 2).Stop.Kill.shutdownState = .Killed := by
  refine ⟨(C6_shutdown_monotonic (ThreadPool.init Nat 2) 0
      [.stopCall, .submit 5, .killCall, .workerIter]).1,
    (C6_shutdown_monotonic (ThreadPool.init Nat 2) 0 []).2.2.1,
    (C6_shutdown_monotonic (ThreadPool.init Nat 2).Kill 0 []).2.2.2.2.2 rfl,
    (C6_shutdown_monotonic (ThreadPool.init Nat 2).Stop 0 []).2.2.2.2.1⟩

open ThreadPool in
/-- C7: pool destruction is the same state transformation as calling
`Stop()` (which signals Draining on a non-killed pool and wakes all
workers) followed by joining every worker in the worker set, and the joins
always complete: teardown runs every worker to Terminated and never blocks
forever. -/
theorem C7_destruct_is_stop_then_join (p : ThreadPool Nat) :
    p.destruct = p.stopThenJoinSpec ∧
    (∃ tss p', p.destruct = some (tss, p')) ∧
    (p.kill = false → p.Stop.shutdownState = .Draining) := by
  refine ⟨rfl, ?_, ?_⟩
  · obtain ⟨tss, p', h, -⟩ :=
      joinAll_of_stop p.workers
        ({ p with stop := true, thread_count := 0 } : ThreadPool Nat) rfl
    exact ⟨tss, p', h⟩
  · intro hk
    simp [Stop, shutdownState, hk]

/-- C7 witness: destroying a running two-worker pool holding two queued
tasks equals stop-then-join-all, the teardown completes, and the stop signal
puts the pool in Draining. -/
theorem C7_destruct_witness :
    (⟨[1, 2], false, false, 2, 2, 2⟩ : ThreadPool Nat).destruct =
      (⟨[1, 2], false, false, 2, 2, 2⟩ : ThreadPool Nat).stopThenJoinSpec ∧
    (∃ tss p',
      (⟨[1, 2], false, false, 2, 2, 2⟩ : ThreadPool Nat).destruct =
        some (tss, p')) ∧
    (⟨[1, 2], false, false, 2, 2, 2⟩ : ThreadPool Nat).Stop.shutdownState =
      .Draining := by
  exact ⟨(C7_destruct_is_stop_then_join ⟨[1, 2], false, false, 2, 2, 2⟩).1,
    (C7_destruct_is_stop_then_join ⟨[1, 2], false, false, 2, 2, 2⟩).2.1,
    (C7_destruct_is_stop_then_join ⟨[1, 2], false, false, 2, 2, 2⟩).2.2 rfl⟩

open ThreadPool in
/-- C8: when the popped task's callable fails, the worker loop does not
terminate (the step yields `executed`, the invocation of the packaged task
captures the failure instead of letting it escape); the failure is stored in
that task's `ResultHandle` and is reported exactly when that handle is
retrieved; every other handle is untouched, the shutdown flags are
untouched, and — while the pool is running — a further submission still
succeeds. -/
theorem C8_task_failure_contained (p : ExecPool Nat String) (e : String)
    (id : Nat) (rest : List Nat) (c : Except String Nat)
    (hq : p.core.task_queue = id :: rest)
    (hk : p.core.kill = false)
    (ht : p.tasks[id]? = some (.error e))
    (hlen : p.handles.length = p.tasks.length) :
    ∃ p', p.workerStep = .executed id p' ∧
      p'.handles[id]? = some (some (.failure e)) ∧
      ResultHandle.get (some (Outcome.failure e) : Option (Outcome Nat String)) =
        some (.error e) ∧
      (∀ j, j ≠ id → p'.handles[j]? = p.handles[j]?) ∧
      p'.tasks = p.tasks ∧
      p'.core.kill = p.core.kill ∧
      p'.core.stop = p.core.stop ∧
      (p.core.stop = false → (p'.SubmitTask c).1 = .ok p'.tasks.length) := by
  have hid : id < p.handles.length := by
    rw [hlen]
    exact (List.getElem?_eq_some_iff.mp ht).1
  have hw := workerWake_pop hk hq
  refine ⟨ExecPool.mk { p.core with task_queue := rest } p.tasks
    (p.handles.set id (some (.failure e))), ?_, ?_, rfl, ?_, rfl, rfl, rfl, ?_⟩
  · simp only [ExecPool.workerStep, hw, ExecPool.execTask]
    rw [show (ExecPool.mk { p.core with task_queue := rest } p.tasks
        p.handles).tasks[id]? = some (Except.error e) from ht]
    simp [runPackagedTask]
  · simpa using List.getElem?_set_self hid
  · intro j hj
    simpa using List.getElem?_set_ne (Ne.symm hj)
  · intro hs
    simp [ExecPool.SubmitTask, Submit, hs, hk]

/-- C8 witness: a one-worker pool whose only queued task fails with "boom":
the worker step executes it rather than dying, the handle holds the captured
failure, retrieval reports it, and the pool accepts a further submission. -/
theorem C8_task_failure_witness :
    ∃ p', (ExecPool.mk ⟨[0], false, false, 1, 1, 1⟩ [.error "boom"] [none] :
        ExecPool Nat String).workerStep = .executed 0 p' ∧
      p'.handles[0]? = some (some (.failure "boom")) ∧
      ResultHandle.get (some (Outcome.failure "boom") :
        Option (Outcome Nat String)) = some (.error "boom") ∧
      (∀ j, j ≠ 0 →
        p'.handles[j]? =
          (ExecPool.mk ⟨[0], false, false, 1, 1, 1⟩ [.error "boom"] [none] :
            ExecPool Nat String).handles[j]?) ∧
      p'.tasks =
        (ExecPool.mk ⟨[0], false, false, 1, 1, 1⟩ [.error "boom"] [none] :
          ExecPool Nat String).tasks ∧
      p'.core.kill = false ∧
      p'.core.stop = false ∧
      (false = false → (p'.SubmitTask (.ok 5)).1 = .ok p'.tasks.length) := by
  exact C8_task_failure_contained
    (ExecPool.mk ⟨[0], false, false, 1, 1, 1⟩ [.error "boom"] [none])
    "boom" 0 [] (.ok 5) rfl rfl rfl rfl

/-- C9: `ThreadSafeQueue(len)` constructs a queue that already holds `len`
default-constructed elements — `Size()` reports `len` and, whenever
`len > 0`, `Empty()` reports false — not an empty queue of capacity
`len`. -/
theorem C9_ctor_prefilled (len : Nat) :
    ThreadSafeQueue.Size (ThreadSafeQueue.ofLen Nat len) = len ∧
    (0 < len → ThreadSafeQueue.Empty (ThreadSafeQueue.ofLen Nat len) = false) := by
  constructor
  · simp [ThreadSafeQueue.Size, ThreadSafeQueue.ofLen]
  · intro h
    cases len with
    | zero => omega
    | succ n => simp [ThreadSafeQueue.Empty, ThreadSafeQueue.ofLen]

/-- C9 witness: a queue constructed with length 2 reports size 2 and is not
empty. -/
theorem C9_ctor_witness :
    ThreadSafeQueue.Size (ThreadSafeQueue.ofLen Nat 2) = 2 ∧
    ThreadSafeQueue.Empty (ThreadSafeQueue.ofLen Nat 2) = false := by
  exact ⟨(C9_ctor_prefilled 2).1, (C9_ctor_prefilled 2).2 (by decide)⟩

open ThreadPool in
/-- C10: the public field `used_threads` equals the configured
`thread_count` at construction and is never modified afterwards: `Submit`,
`Stop`, `Kill`, any sequence of operations (worker iterations included) and
destruction all leave it unchanged, so it keeps reporting the originally
configured count. -/
theorem C10_used_threads_constant (tc : Nat) (p : ThreadPool Nat) (t : Nat)
    (ops : List (PoolOp Nat)) :
    (ThreadPool.init Nat tc).used_threads = tc ∧
    ((p.Submit t).2).used_threads = p.used_threads ∧
    p.Stop.used_threads = p.used_threads ∧
    p.Kill.used_threads = p.used_threads ∧
    (p.applyOps ops).used_threads = p.used_threads ∧
    (∀ tss p', p.destruct = some (tss, p') →
      p'.used_threads = p.used_threads) := by
  refine ⟨rfl, ?_, rfl, rfl, applyOps_used_threads ops p, ?_⟩
  · by_cases hc : (p.stop || p.kill) = true <;> simp [Submit, hc]
  · intro tss p' hd
    have := joinAll_frame p.workers
      ({ p with stop := true, thread_count := 0 } : ThreadPool Nat) tss p' hd
    rw [this]

/-- C10 witness: `used_threads` is 1 at construction of a 1-thread pool and
still 1 in the final state of a destruction that drained one queued task;
it survives a submit-stop-kill-worker sequence. -/
theorem C10_used_threads_witness :
    (ThreadPool.init Nat 1).used_threads = 1 ∧
    (((ThreadPool.init Nat 1).applyOps
      [.submit 5, .stopCall, .killCall, .workerIter]).used_threads =
        (ThreadPool.init Nat 1).used_threads) ∧
    (⟨[], false, true, 0, 1, 1⟩ : ThreadPool Nat).used_threads =
      (⟨[9], false, false, 1, 1, 1⟩ : ThreadPool Nat).used_threads := by
  have hd : (⟨[9], false, false, 1, 1, 1⟩ : ThreadPool Nat).destruct =
      some ([[9]], ⟨[], false, true, 0, 1, 1⟩) := by
    have h1 := ThreadPool.workerRunToTerm_drain [9]
      (⟨[9], false, true, 0, 1, 1⟩ : ThreadPool Nat) rfl rfl rfl
    simp [ThreadPool.destruct, ThreadPool.joinAll, h1]
  exact ⟨(C10_used_threads_constant 1 (ThreadPool.init Nat 1) 0 []).1,
    (C10_used_threads_constant 1 (ThreadPool.init Nat 1) 0
      [.submit 5, .stopCall, .killCall, .workerIter]).2.2.2.2.1,
    (C10_used_threads_constant 1 ⟨[9], false, false, 1, 1, 1⟩ 0 []).2.2.2.2.2
      [[9]] ⟨[], false, true, 0, 1, 1⟩ hd⟩

end qlm
